import Mathlib

/-!
Shallow embedding of the microDL preprocessing core: the non-uniform tile
correspondence engine (`micro_dl/preprocessing/tile_nonuniform_images.py`),
the z-score normalization parameter computation
(`micro_dl/utils/meta_utils.py`), and the mask processor construction
(`micro_dl/preprocessing/generate_masks.py`).

Python dicts are embedded as association lists in insertion order, pandas
tables as lists of records, NaN-able columns as `Option` fields, and the
multiprocessing dispatchers as pure per-item functions (the spec states jobs
are pure functions of their argument tuples, collected in submission order).
Helper functions whose defining modules are absent from the sources
(`aux_utils`, `tile_uniform_images`, `mp_utils`) are modelled from the
specification and marked as such in their doc comments.
-/

namespace MicroDL

/-- One row of the consolidated tile metadata table (a TileRecord): identity
indices plus the tile origin.  File names and pixel payloads are I/O-level
data not needed by any claim and are not modelled. -/
structure TileRecord where
  time_idx : Nat
  channel_idx : Nat
  slice_idx : Nat
  pos_idx : Nat
  row_start : Nat
  col_start : Nat
deriving DecidableEq, Repr

/-- Innermost level of the nested index dict: pos_idx -> ordered slice list. -/
abbrev PosDict := List (Nat × List Nat)

/-- Middle level of the nested index dict: channel_idx -> PosDict. -/
abbrev ChDict := List (Nat × PosDict)

/-- The nested id dict built by `validate_metadata_indices` with
`uniform_structure=False`: time_idx -> channel_idx -> pos_idx -> slices. -/
abbrev IndexTree := List (Nat × ChDict)

/-- Modelled from the spec: `aux_utils.adjust_slice_margins` (module absent
from the sources).  Per the spec, a stack of `depth` consecutive slices must
exist centered at each selected slice (depth 5 centered at k requires
k-2..k+2), and candidate slices whose depth window exceeds the available
range are dropped. -/
def adjust_slice_margins (sl_idx_list : List Nat) (depth : Nat) : List Nat :=
  let margin := depth / 2
  sl_idx_list.filter (fun k =>
    decide (margin ≤ k) &&
      (List.range depth).all (fun d => sl_idx_list.contains (k - margin + d)))

/-- Modelled from the spec: `ImageTilerUniform._get_tile_indices` (module
absent from the sources).  It looks up the tile coordinate set previously
recorded for the already-tiled (reference/mask) channel at the matching
(time, pos, slice) key in the tiled metadata. -/
def get_tile_indices (tiled_meta : List TileRecord)
    (time_idx channel_idx pos_idx slice_idx : Nat) : List (Nat × Nat) :=
  (tiled_meta.filter (fun r =>
      r.time_idx == time_idx && r.channel_idx == channel_idx &&
        r.pos_idx == pos_idx && r.slice_idx == slice_idx)).map
    (fun r => (r.row_start, r.col_start))

/-- Modelled from the spec: the `task_type='crop'` path of
`get_crop_tile_args` plus `mp_crop_save` (modules absent from the sources).
The spec: crop exactly the looked-up coordinates from the current channel's
frame and record a TileRecord reusing the coordinates of the reference
tile. -/
def crop_at_indices (channel_idx time_idx slice_idx pos_idx : Nat)
    (tile_indices : List (Nat × Nat)) : List TileRecord :=
  tile_indices.map (fun rc =>
    ⟨time_idx, channel_idx, slice_idx, pos_idx, rc.1, rc.2⟩)

/-- Body of the innermost loop of
`ImageTilerNonUniform.tile_remaining_channels` for one
(time, channel, pos, slice-list) leaf: margins are adjusted with
`self.channel_depth[ch_idx]` (the current channel's own depth), the tile
indices of the already-tiled channel are looked up, and a leaf is cropped
only when that lookup is non-empty (`np.any(cur_tile_indices)`; each real
tile-index row carries a positive end coordinate, so `np.any` coincides with
non-emptiness). -/
def remaining_leaf_records (channel_depth : Nat → Nat)
    (cur_meta_df : List TileRecord) (tiled_ch_id : Nat)
    (tp_idx ch_idx pos_idx : Nat) (sl_idx_list : List Nat) : List TileRecord :=
  (adjust_slice_margins sl_idx_list (channel_depth ch_idx)).flatMap
    (fun sl_idx =>
      let cur_tile_indices :=
        get_tile_indices cur_meta_df tp_idx tiled_ch_id pos_idx sl_idx
      if cur_tile_indices.isEmpty then []
      else crop_at_indices ch_idx tp_idx sl_idx pos_idx cur_tile_indices)

/-- The new TileRecords produced by
`ImageTilerNonUniform.tile_remaining_channels`: the triple loop over the
nested id dict, dispatched through `mp_crop_save` and concatenated in
submission order. -/
def tile_remaining_new (channel_depth : Nat → Nat)
    (nested_id_dict : IndexTree) (tiled_ch_id : Nat)
    (cur_meta_df : List TileRecord) : List TileRecord :=
  nested_id_dict.flatMap (fun tp =>
    tp.2.flatMap (fun ch =>
      ch.2.flatMap (fun pos =>
        remaining_leaf_records channel_depth cur_meta_df tiled_ch_id
          tp.1 ch.1 pos.1 pos.2)))

/-- Final consolidated table written by
`ImageTilerNonUniform.tile_remaining_channels`: the already-tiled metadata
concatenated with the newly cropped records (the source then re-sorts rows
by file name and persists the CSV; row order is not used by any claim). -/
def tile_remaining_channels (channel_depth : Nat → Nat)
    (nested_id_dict : IndexTree) (tiled_ch_id : Nat)
    (cur_meta_df : List TileRecord) : List TileRecord :=
  cur_meta_df ++
    tile_remaining_new channel_depth nested_id_dict tiled_ch_id cur_meta_df

/-- The records produced by `ImageTilerNonUniform.tile_first_channel`:
slices of each (time, channel, pos) leaf of `channel0_ids` are margin
adjusted with `channel0_depth`; the per-frame tiling itself (grid plus
foreground filtering inside `mp_tile_save`) reads image pixels, so it is
abstracted as the function `tileOne` from (time, channel, pos, slice) to the
retained (row_start, col_start) origins of that frame. -/
def tile_first_channel (tileOne : Nat → Nat → Nat → Nat → List (Nat × Nat))
    (channel0_ids : IndexTree) (channel0_depth : Nat) : List TileRecord :=
  channel0_ids.flatMap (fun tp =>
    tp.2.flatMap (fun ch =>
      ch.2.flatMap (fun pos =>
        (adjust_slice_margins pos.2 channel0_depth).flatMap (fun sl_idx =>
          (tileOne tp.1 ch.1 pos.1 sl_idx).map (fun rc =>
            ⟨tp.1, ch.1, sl_idx, pos.1, rc.1, rc.2⟩)))))

/-- The `ch0_ids` construction of `ImageTilerNonUniform.tile_stack`,
including its Python scoping behavior: `ch0_dict` is assigned only when the
reference channel is found in the current time point's channel dict, and the
binding LEAKS across loop iterations, so a time point without the reference
channel receives the previous time point's `ch0_dict` (and the whole call
raises `NameError`, modelled as `none`, when the first time point lacks the
reference channel). -/
def build_ch0_ids (nested_id_dict : IndexTree) (ch_to_tile : Nat) :
    Option IndexTree :=
  (nested_id_dict.foldl
    (fun acc tp =>
      match acc with
      | none => none
      | some st =>
        let ch0_dict :=
          tp.2.foldl
            (fun d ch => if ch.1 = ch_to_tile then some [(ch.1, ch.2)] else d)
            st.2
        match ch0_dict with
        | none => none
        | some d => some (st.1 ++ [(tp.1, d)], some d))
    (some (([] : IndexTree), (none : Option ChDict)))).map (fun st => st.1)

/-- The `nested_id_dict_copy` of `ImageTilerNonUniform.tile_stack` after the
`del nested_id_dict_copy[tp_idx][ch_idx]` statements: the deep copy of the
nested id dict with every entry of the reference channel removed. -/
def remaining_ids (nested_id_dict : IndexTree) (ch_to_tile : Nat) : IndexTree :=
  nested_id_dict.map (fun tp => (tp.1, tp.2.filter (fun ch => ch.1 ≠ ch_to_tile)))

/-- State of an `ImageTilerNonUniform` object that the claims touch:
the requested channel list, the per-channel depth dict, and the nested id
dict computed at construction. -/
structure TilerState where
  channel_ids : List Nat
  channel_depth : Nat → Nat
  nested_id_dict : IndexTree

/-- Specification-level restriction of an index tree to one channel: keep,
for every time point, exactly the entries of that channel (used to compare
the source's `ch0_ids` against the spec's "IndexTree restricted to just that
channel"). -/
def channel0_restrict (nested_id_dict : IndexTree) (ch : Nat) : IndexTree :=
  (nested_id_dict.map (fun tp => (tp.1, tp.2.filter (fun c => c.1 = ch)))).filter
    (fun tp => ¬ tp.2.isEmpty)

/-- The `ImageTilerNonUniform.tile_stack` run: select the reference channel
`self.channel_ids[0]` (IndexError, i.e. `none`, on an empty list), build
`ch0_ids` and the remaining dict, tile the first channel, pop the reference
channel off `self.channel_ids`, and tile the remaining channels when any are
left.  It returns the mutated object state and the final consolidated
table. -/
def tile_stack (tileOne : Nat → Nat → Nat → Nat → List (Nat × Nat))
    (st : TilerState) : Option (TilerState × List TileRecord) :=
  match st.channel_ids with
  | [] => none
  | ch_to_tile :: rest =>
    let ch_depth := st.channel_depth ch_to_tile
    match build_ch0_ids st.nested_id_dict ch_to_tile with
    | none => none
    | some ch0_ids =>
      let nested_id_dict_copy := remaining_ids st.nested_id_dict ch_to_tile
      let meta_df := tile_first_channel tileOne ch0_ids ch_depth
      let st2 : TilerState := ⟨rest, st.channel_depth, st.nested_id_dict⟩
      if rest.isEmpty then some (st2, meta_df)
      else
        some (st2,
          tile_remaining_channels st.channel_depth nested_id_dict_copy
            ch_to_tile meta_df)

/-- Construction of `ImageTilerNonUniform`: after the superclass init and
index validation (both free of tiling work), the constructor asserts that no
`frames_meta.csv` exists in the tile directory and aborts otherwise; tiles
are only ever produced by a later `tile_stack` / `tile_mask_stack` call on
the successfully constructed state. -/
def imageTilerNonUniform_init (frames_meta_exists : Bool)
    (channel_ids : List Nat) (channel_depth : Nat → Nat)
    (nested_id_dict : IndexTree) : Option TilerState :=
  if frames_meta_exists then none
  else some ⟨channel_ids, channel_depth, nested_id_dict⟩

/-- One row of the frames metadata table (a FrameRecord).  The optional
columns `fg_frac`, `zscore_median` and `zscore_iqr` use `none` for NaN or a
still-absent value. -/
structure FrameRow where
  dir_name : String
  time_idx : Nat
  channel_idx : Nat
  slice_idx : Nat
  pos_idx : Nat
  file_name : String
  fg_frac : Option ℚ
  zscore_median : Option ℚ
  zscore_iqr : Option ℚ
deriving DecidableEq, Repr

/-- One row of the intensity-samples table produced by
`ints_meta_generator`: the owning frame's identity, one sampled intensity,
and an optional foreground fraction (`none` for NaN). -/
structure IntsRow where
  dir_name : String
  time_idx : Nat
  channel_idx : Nat
  slice_idx : Nat
  pos_idx : Nat
  intensity : ℚ
  fg_frac : Option ℚ
deriving DecidableEq, Repr

/-- Column assignment `frames_meta['zscore_median'] = v` on one row. -/
def set_zscore_median (r : FrameRow) (v : Option ℚ) : FrameRow :=
  ⟨r.dir_name, r.time_idx, r.channel_idx, r.slice_idx, r.pos_idx,
    r.file_name, r.fg_frac, v, r.zscore_iqr⟩

/-- Column assignment `frames_meta['zscore_iqr'] = v` on one row. -/
def set_zscore_iqr (r : FrameRow) (v : Option ℚ) : FrameRow :=
  ⟨r.dir_name, r.time_idx, r.channel_idx, r.slice_idx, r.pos_idx,
    r.file_name, r.fg_frac, r.zscore_median, v⟩

/-- Aggregation scope of `compute_zscore_params` when `normalize_im` is not
None: `dataset`, `volume` or `slice`. -/
inductive NormScheme
  | dataset
  | volume
  | slice
deriving DecidableEq, Repr

/-- Aggregation key selected by `agg_cols`: (dir_name, time_idx,
channel_idx) always, plus pos_idx for `volume`/`slice` and slice_idx for
`slice`. -/
abbrev AggKey := String × Nat × Nat × Option Nat × Option Nat

/-- The `agg_cols` key of an intensity-sample row for a given scope. -/
def aggKeyInts (scheme : NormScheme) (r : IntsRow) : AggKey :=
  match scheme with
  | .dataset => (r.dir_name, r.time_idx, r.channel_idx, none, none)
  | .volume => (r.dir_name, r.time_idx, r.channel_idx, some r.pos_idx, none)
  | .slice =>
    (r.dir_name, r.time_idx, r.channel_idx, some r.pos_idx, some r.slice_idx)

/-- The `agg_cols` key of a frames-metadata row for a given scope. -/
def aggKeyFrame (scheme : NormScheme) (r : FrameRow) : AggKey :=
  match scheme with
  | .dataset => (r.dir_name, r.time_idx, r.channel_idx, none, none)
  | .volume => (r.dir_name, r.time_idx, r.channel_idx, some r.pos_idx, none)
  | .slice =>
    (r.dir_name, r.time_idx, r.channel_idx, some r.pos_idx, some r.slice_idx)

/-- The row filter `ints_meta = ints_meta[ints_meta['fg_frac'] >=
min_fraction]`.  In pandas any comparison with NaN is False, so a row whose
`fg_frac` is NaN (`none`) is dropped for every `min_fraction`. -/
def filterFg (ints_meta : List IntsRow) (min_fraction : ℚ) : List IntsRow :=
  ints_meta.filter (fun r =>
    match r.fg_frac with
    | some v => decide (min_fraction ≤ v)
    | none => false)

/-- The pandas linear-interpolation quantile over one aggregation group
(`DataFrame.quantile`; `median()` coincides with `quantile(0.5)`). -/
def pandasQuantile (xs : List ℚ) (q : ℚ) : ℚ :=
  let s := xs.mergeSort (fun a b => decide (a ≤ b))
  match s with
  | [] => 0
  | _ =>
    let n := s.length
    let pos : ℚ := q * ((n : ℚ) - 1)
    let i : Nat := (Rat.floor pos).toNat
    let frac : ℚ := pos - (Rat.floor pos : ℚ)
    let lower := s.getD i 0
    let upper := s.getD (i + 1) lower
    lower + frac * (upper - lower)

/-- The grouped aggregation of `compute_zscore_params`: group the filtered
intensity samples by `agg_cols` and record per group the median as
`zscore_median` and the 0.75-minus-0.25 quantile gap as `zscore_iqr`
(pandas sorts group keys; key order is irrelevant here because keys are
unique and only looked up). -/
def ints_agg (scheme : NormScheme) (ints_meta : List IntsRow) :
    List (AggKey × ℚ × ℚ) :=
  let keys := (ints_meta.map (aggKeyInts scheme)).eraseDups
  keys.map (fun k =>
    let vals :=
      (ints_meta.filter (fun r => aggKeyInts scheme r == k)).map
        (fun r => r.intensity)
    (k, pandasQuantile vals (1 / 2),
      pandasQuantile vals (3 / 4) - pandasQuantile vals (1 / 4)))

/-- The final merge of `compute_zscore_params`: the prior `zscore_median` /
`zscore_iqr` columns are dropped (`cols_to_merge`) and the aggregate is
left-merged on `agg_cols`; group keys are unique, so each left row either
receives its group's values or NaN (`none`). -/
def mergeZscore (scheme : NormScheme) (frames_meta : List FrameRow)
    (agg : List (AggKey × ℚ × ℚ)) : List FrameRow :=
  frames_meta.map (fun fr =>
    match agg.find? (fun kv => kv.1 == aggKeyFrame scheme fr) with
    | some kv => set_zscore_iqr (set_zscore_median fr (some kv.2.1)) (some kv.2.2)
    | none => set_zscore_iqr (set_zscore_median fr none) none)

/-- The function `meta_utils.compute_zscore_params` (persisting the CSV is
an I/O effect; the returned table is modelled).  Note the `normalize_im is
None` branch of the source assigns the `zscore_median` column twice (0, then
1) and never assigns `zscore_iqr`. -/
def compute_zscore_params (frames_meta : List FrameRow)
    (ints_meta : List IntsRow) (normalize_im : Option NormScheme)
    (min_fraction : ℚ) : List FrameRow :=
  match normalize_im with
  | none =>
    let fm := frames_meta.map (fun r => set_zscore_median r (some 0))
    fm.map (fun r => set_zscore_median r (some 1))
  | some scheme =>
    let ints_f := filterFg ints_meta min_fraction
    mergeZscore scheme frames_meta (ints_agg scheme ints_f)

/-- The four mask types accepted by the assertion in
`MaskProcessor.__init__` (note the dataset-level policy is spelled with a
space: `'dataset otsu'`). -/
def supported_mask_types : List String :=
  ["otsu", "unimodal", "dataset otsu", "borders_weight_loss_map"]

/-- State of a constructed `MaskProcessor` that the claims touch. -/
structure MaskProcessorState where
  mask_channel : Nat
  mask_type : String
deriving DecidableEq, Repr

/-- Construction of `MaskProcessor`: the mask channel defaults to
`max(channel_idx) + 1` when not supplied, and the constructor asserts
`mask_type in ['otsu', 'unimodal', 'dataset otsu',
'borders_weight_loss_map']`, failing (`none`) for every other string.
Metadata reading, index validation and mask-directory creation are I/O
steps that cannot fail on a well-formed dataset and are not modelled. -/
def maskProcessor_init (frame_channel_idxs : List Nat)
    (mask_channel : Option Nat) (mask_type : String) :
    Option MaskProcessorState :=
  let mc :=
    match mask_channel with
    | some m => m
    | none => frame_channel_idxs.foldl max 0 + 1
  if mask_type ∈ supported_mask_types then some ⟨mc, mask_type⟩ else none

/-- Slice indices (deduplicated) of the records a table holds for one
channel; used to compare the slice sets produced for different channels. -/
def slicesFor (records : List TileRecord) (ch : Nat) : List Nat :=
  ((records.filter (fun r => r.channel_idx == ch)).map
    (fun r => r.slice_idx)).eraseDups

/-- Concrete already-tiled reference metadata (channel 5): two tiles at
slice 0 and one tile each at slices 1 and 2 of time 0, pos 0. -/
def refMeta : List TileRecord :=
  [⟨0, 5, 0, 0, 0, 0⟩, ⟨0, 5, 0, 0, 0, 64⟩,
    ⟨0, 5, 1, 0, 0, 0⟩, ⟨0, 5, 2, 0, 0, 0⟩]

/-- Concrete remaining-channel index tree: channels 1 and 2 share time 0,
pos 0 and the slice list [0, 1, 2]. -/
def twoChanTree : IndexTree :=
  [(0, [(1, [(0, [0, 1, 2])]), (2, [(0, [0, 1, 2])])])]

/-- Concrete per-channel depth dict: depth 3 for channel 2, depth 1
otherwise. -/
def depthOf : Nat → Nat := fun ch => if ch = 2 then 3 else 1

/-- Concrete pos dict used by the `tile_stack` fixtures. -/
def c3posd : PosDict := [(0, [0])]

/-- Concrete nested id dict in which time 0 holds only channel 0 and time 1
holds only channel 1. -/
def c3tree : IndexTree := [(0, [(0, c3posd)]), (1, [(1, c3posd)])]

/-- Concrete frames-metadata row carrying prior z-score values. -/
def c7row : FrameRow := ⟨"d", 0, 0, 0, 0, "a.png", none, some 5, some 7⟩

/-- Concrete frames-metadata row with no z-score values yet. -/
def c4row : FrameRow := ⟨"dir", 0, 0, 0, 0, "im.png", none, none, none⟩

/-- Concrete intensity-sample row whose `fg_frac` is NaN (`none`). -/
def c9row : IntsRow := ⟨"d", 0, 0, 0, 0, 3, none⟩

/-- Concrete per-frame tiling function: every frame yields one tile at the
origin. -/
def tileOneW : Nat → Nat → Nat → Nat → List (Nat × Nat) := fun _ _ _ _ => [(0, 0)]

/-- Concrete tiler state with two requested channels, both present at the
single time point. -/
def stW : TilerState :=
  ⟨[0, 1], fun _ => 1, [(0, [(0, [(0, [0])]), (1, [(0, [0])])])]⟩

/-- Object state left behind by running `tile_stack` on `stW`: the
reference channel 0 has been popped off `channel_ids`. -/
def stW2 : TilerState :=
  ⟨[1], fun _ => 1, [(0, [(0, [(0, [0])]), (1, [(0, [0])])])]⟩

/-- Consolidated table produced by running `tile_stack` on `stW`. -/
def outW : List TileRecord := [⟨0, 0, 0, 0, 0, 0⟩, ⟨0, 1, 0, 0, 0, 0⟩]

/-- Clearing of both z-score columns of one row, as done to every left row
whose `agg_cols` key matches no aggregation group. -/
def strip_zscore (r : FrameRow) : FrameRow :=
  set_zscore_iqr (set_zscore_median r none) none

theorem adjust_slice_margins_subset {sl_idx_list : List Nat} {depth k : Nat}
    (h : k ∈ adjust_slice_margins sl_idx_list depth) : k ∈ sl_idx_list := by
  simp only [adjust_slice_margins, List.mem_filter] at h
  exact h.1

/-- C1: every TileRecord produced for a remaining (non-reference) channel by
`tile_remaining_channels` has (row_start, col_start) equal to those of some
TileRecord of the already-tiled reference channel at the same (time_idx,
pos_idx, slice_idx) key of the already-tiled metadata; remaining channels
never compute a tile grid of their own. -/
theorem c1_propagated_tiles_reuse_reference_origins
    (channel_depth : Nat → Nat) (nested_id_dict : IndexTree)
    (tiled_ch_id : Nat) (cur_meta_df : List TileRecord) (r : TileRecord)
    (hr : r ∈ tile_remaining_new channel_depth nested_id_dict tiled_ch_id
      cur_meta_df) :
    ∃ r0 ∈ cur_meta_df, r0.channel_idx = tiled_ch_id ∧
      r0.time_idx = r.time_idx ∧ r0.pos_idx = r.pos_idx ∧
      r0.slice_idx = r.slice_idx ∧ r0.row_start = r.row_start ∧
      r0.col_start = r.col_start := by
  simp only [tile_remaining_new, List.mem_flatMap] at hr
  obtain ⟨tp, _htp, ch, _hch, pos, _hpos, hleaf⟩ := hr
  simp only [remaining_leaf_records, List.mem_flatMap] at hleaf
  obtain ⟨sl, _hsl, hin⟩ := hleaf
  split at hin
  · cases hin
  · simp only [crop_at_indices, List.mem_map] at hin
    obtain ⟨rc, hrc, hreq⟩ := hin
    simp only [get_tile_indices, List.mem_map, List.mem_filter] at hrc
    obtain ⟨r0, ⟨hr0mem, hpred⟩, hco⟩ := hrc
    simp only [Bool.and_eq_true, beq_iff_eq] at hpred
    obtain ⟨⟨⟨ht, hc⟩, hp⟩, hs⟩ := hpred
    subst hreq
    exact ⟨r0, hr0mem, hc, ht, hp, hs, by rw [← hco], by rw [← hco]⟩

/-- Witness for C1: the concrete propagated tile of channel 1 at slice 0
with origin (0, 64) reuses a reference tile of channel 5 in `refMeta`. -/
theorem c1_propagated_tiles_reuse_reference_origins_witness :
    ∃ r0 ∈ refMeta, r0.channel_idx = 5 ∧
      r0.time_idx = (0 : Nat) ∧ r0.pos_idx = (0 : Nat) ∧
      r0.slice_idx = (0 : Nat) ∧ r0.row_start = (0 : Nat) ∧
      r0.col_start = (64 : Nat) :=
  c1_propagated_tiles_reuse_reference_origins depthOf twoChanTree 5 refMeta
    ⟨0, 1, 0, 0, 0, 64⟩ (by decide)

/-- C2: a leaf of the remaining-channel index tree whose (time, pos, slice)
key carries no recorded tile coordinates for the reference channel yields no
TileRecord (the leaf is skipped, nothing is invented), and every produced
TileRecord stems from a (time, channel, pos, slice) actually present in the
remaining-channel index tree, so keys absent from a channel's tree yield no
record for that channel. -/
theorem c2_skip_missing_reference_no_fabrication
    (channel_depth : Nat → Nat) (nested_id_dict : IndexTree)
    (tiled_ch_id : Nat) (cur_meta_df : List TileRecord) :
    (∀ r ∈ tile_remaining_new channel_depth nested_id_dict tiled_ch_id
        cur_meta_df,
      get_tile_indices cur_meta_df r.time_idx tiled_ch_id r.pos_idx
        r.slice_idx ≠ []) ∧
    (∀ r ∈ tile_remaining_new channel_depth nested_id_dict tiled_ch_id
        cur_meta_df,
      ∃ tpd, (r.time_idx, tpd) ∈ nested_id_dict ∧
        ∃ pd, (r.channel_idx, pd) ∈ tpd ∧
          ∃ sls, (r.pos_idx, sls) ∈ pd ∧ r.slice_idx ∈ sls) := by
  constructor
  · intro r hr
    simp only [tile_remaining_new, List.mem_flatMap] at hr
    obtain ⟨tp, _htp, ch, _hch, pos, _hpos, hleaf⟩ := hr
    simp only [remaining_leaf_records, List.mem_flatMap] at hleaf
    obtain ⟨sl, _hsl, hin⟩ := hleaf
    split at hin
    · cases hin
    · next hne =>
      simp only [crop_at_indices, List.mem_map] at hin
      obtain ⟨rc, _hrc, hreq⟩ := hin
      subst hreq
      simp only [List.isEmpty_eq_true] at hne
      exact hne
  · intro r hr
    simp only [tile_remaining_new, List.mem_flatMap] at hr
    obtain ⟨tp, htp, ch, hch, pos, hpos, hleaf⟩ := hr
    simp only [remaining_leaf_records, List.mem_flatMap] at hleaf
    obtain ⟨sl, hsl, hin⟩ := hleaf
    split at hin
    · cases hin
    · simp only [crop_at_indices, List.mem_map] at hin
      obtain ⟨rc, _hrc, hreq⟩ := hin
      subst hreq
      refine ⟨tp.2, ?_, ch.2, ?_, pos.2, ?_, ?_⟩
      · simpa using htp
      · simpa using hch
      · simpa using hpos
      · exact adjust_slice_margins_subset hsl

/-- Witness for C2: the concrete propagated tile of channel 2 at slice 1 has
reference coordinates recorded in `refMeta` and a matching leaf in
`twoChanTree`. -/
theorem c2_skip_missing_reference_no_fabrication_witness :
    get_tile_indices refMeta 0 5 0 1 ≠ [] ∧
    (∃ tpd, ((0 : Nat), tpd) ∈ twoChanTree ∧
      ∃ pd, ((2 : Nat), pd) ∈ tpd ∧
        ∃ sls, ((0 : Nat), sls) ∈ pd ∧ (1 : Nat) ∈ sls) :=
  ⟨(c2_skip_missing_reference_no_fabrication depthOf twoChanTree 5
      refMeta).1 ⟨0, 2, 1, 0, 0, 0⟩ (by decide),
    (c2_skip_missing_reference_no_fabrication depthOf twoChanTree 5
      refMeta).2 ⟨0, 2, 1, 0, 0, 0⟩ (by decide)⟩

/-- C3: evaluation of the `ch0_ids` construction of `tile_stack` on a
non-uniform tree in which time 0 holds only the reference channel 0 and
time 1 holds only channel 1.  The stale `ch0_dict` binding maps time 1 to
TIME 0's reference sub-dict, whereas the spec's restriction of the tree to
the reference channel contains time 0 only; a tree whose FIRST time point
lacks the reference channel makes the construction fail outright
(`NameError`).  Only the `remaining_ids` half behaves as the claim says. -/
theorem c3_ch0_ids_stale_reference_binding :
    build_ch0_ids c3tree 0 = some [(0, [(0, c3posd)]), (1, [(0, c3posd)])] ∧
    channel0_restrict c3tree 0 = [(0, [(0, c3posd)])] ∧
    build_ch0_ids [(0, [(1, c3posd)])] 0 = none ∧
    remaining_ids c3tree 0 = [(0, []), (1, [(1, c3posd)])] :=
  ⟨rfl, rfl, rfl, rfl⟩

/-- C4: evaluation of the `normalize_im is None` branch of
`compute_zscore_params`.  The source assigns the `zscore_median` column
twice (0, then 1) and never assigns `zscore_iqr`, so every record ends with
zscore_median = 1 — not 0 — and an untouched zscore_iqr, contradicting the
documented constant median-0 / iqr-1 behavior. -/
theorem c4_none_branch_writes_median_one_iqr_untouched :
    (∀ (frames_meta : List FrameRow) (ints_meta : List IntsRow)
        (min_fraction : ℚ),
      compute_zscore_params frames_meta ints_meta none min_fraction =
        frames_meta.map (fun r => set_zscore_median r (some 1))) ∧
    compute_zscore_params [c4row] [] none 0 =
      [⟨"dir", 0, 0, 0, 0, "im.png", none, some 1, none⟩] ∧
    (some (1 : ℚ) ≠ some (0 : ℚ)) := by
  refine ⟨?_, rfl, by decide⟩
  intro frames_meta ints_meta min_fraction
  simp only [compute_zscore_params, List.map_map]
  rfl

/-- C5: when a consolidated `frames_meta.csv` already exists in the target
tile directory, constructing the non-uniform tiler fails, for every other
constructor input; no tiler state is produced, and tiles are only ever
written by `tile_stack` runs on a successfully constructed state, so no
tiling work happens. -/
theorem c5_existing_tile_meta_aborts_init (channel_ids : List Nat)
    (channel_depth : Nat → Nat) (nested_id_dict : IndexTree) :
    imageTilerNonUniform_init true channel_ids channel_depth nested_id_dict =
      none := rfl

/-- C6: the slice-margin adjustment of a remaining channel depends only on
that channel's own depth entry (changing any other channel's depth leaves
its records unchanged), every produced record's slice lies in the list
adjusted with the channel's own depth, and on a concrete run two channels
with depths 1 and 3 sharing time, pos and slice list [0, 1, 2] yield the
different valid slice sets [0, 1, 2] and [1]. -/
theorem c6_margins_use_own_channel_depth :
    (∀ (cd cd2 : Nat → Nat) (meta : List TileRecord)
        (tiled_ch tp ch p : Nat) (sls : List Nat), cd ch = cd2 ch →
      remaining_leaf_records cd meta tiled_ch tp ch p sls =
        remaining_leaf_records cd2 meta tiled_ch tp ch p sls) ∧
    (∀ (cd : Nat → Nat) (meta : List TileRecord) (tiled_ch tp ch p : Nat)
        (sls : List Nat) (r : TileRecord),
      r ∈ remaining_leaf_records cd meta tiled_ch tp ch p sls →
      r.slice_idx ∈ adjust_slice_margins sls (cd ch)) ∧
    (slicesFor (tile_remaining_new depthOf twoChanTree 5 refMeta) 1 =
        [0, 1, 2] ∧
      slicesFor (tile_remaining_new depthOf twoChanTree 5 refMeta) 2 = [1] ∧
      depthOf 1 ≠ depthOf 2) := by
  refine ⟨?_, ?_, by decide, by decide, by decide⟩
  · intro cd cd2 meta tiled_ch tp ch p sls h
    unfold remaining_leaf_records
    rw [h]
  · intro cd meta tiled_ch tp ch p sls r hr
    simp only [remaining_leaf_records, List.mem_flatMap] at hr
    obtain ⟨sl, hsl, hin⟩ := hr
    split at hin
    · cases hin
    · simp only [crop_at_indices, List.mem_map] at hin
      obtain ⟨rc, _hrc, hreq⟩ := hin
      subst hreq
      exact hsl

/-- Witness for C6: channel 2's records are unchanged when every OTHER
depth entry is replaced, and the concrete record of channel 2 at slice 1
lies in the margin-adjusted slice list for channel 2's own depth 3. -/
theorem c6_margins_use_own_channel_depth_witness :
    remaining_leaf_records depthOf refMeta 5 0 2 0 [0, 1, 2] =
      remaining_leaf_records (fun _ => 3) refMeta 5 0 2 0 [0, 1, 2] ∧
    (⟨0, 2, 1, 0, 0, 0⟩ : TileRecord).slice_idx ∈
      adjust_slice_margins [0, 1, 2] (depthOf 2) :=
  ⟨c6_margins_use_own_channel_depth.1 depthOf (fun _ => 3) refMeta 5 0 2 0
      [0, 1, 2] rfl,
    c6_margins_use_own_channel_depth.2.1 depthOf refMeta 5 0 2 0 [0, 1, 2]
      ⟨0, 2, 1, 0, 0, 0⟩ (by decide)⟩

/-- C7 (amended): in the aggregation branches of `compute_zscore_params`
all columns other than zscore_median and zscore_iqr are unchanged for every
row, and a row matching no aggregation group ends with MISSING (NaN)
zscore_median and zscore_iqr — its prior values are dropped together with
the old columns before the left merge, not kept. -/
theorem c7_unmatched_rows_get_nan_others_unchanged (scheme : NormScheme)
    (frames_meta : List FrameRow) (ints_meta : List IntsRow)
    (min_fraction : ℚ) :
    ((compute_zscore_params frames_meta ints_meta (some scheme)
        min_fraction).map strip_zscore = frames_meta.map strip_zscore) ∧
    (∀ fr ∈ frames_meta,
      (∀ kv ∈ ints_agg scheme (filterFg ints_meta min_fraction),
        kv.1 ≠ aggKeyFrame scheme fr) →
      strip_zscore fr ∈
        compute_zscore_params frames_meta ints_meta (some scheme)
          min_fraction) := by
  constructor
  · simp only [compute_zscore_params, mergeZscore, List.map_map]
    refine List.map_congr_left ?_
    intro fr _
    simp only [Function.comp]
    cases (ints_agg scheme (filterFg ints_meta min_fraction)).find?
        (fun kv => kv.1 == aggKeyFrame scheme fr) with
    | none => rfl
    | some kv => rfl
  · intro fr hfr hnone
    simp only [compute_zscore_params, mergeZscore, List.mem_map]
    refine ⟨fr, hfr, ?_⟩
    have hfind : (ints_agg scheme (filterFg ints_meta min_fraction)).find?
        (fun kv => kv.1 == aggKeyFrame scheme fr) = none := by
      rw [List.find?_eq_none]
      intro kv hkv
      simpa using hnone kv hkv
    rw [hfind]
    rfl

/-- Witness for C7 (amended): the row `c7row` matches no group of the empty
aggregate, and the output holds that row with both z-score columns
cleared. -/
theorem c7_unmatched_rows_get_nan_others_unchanged_witness :
    strip_zscore c7row ∈
      compute_zscore_params [c7row] [] (some NormScheme.dataset) 0 :=
  (c7_unmatched_rows_get_nan_others_unchanged NormScheme.dataset [c7row] []
    0).2 c7row (List.mem_singleton.mpr rfl)
    (by
      intro kv hkv
      simp [ints_agg, filterFg,
        show (List.eraseDups ([] : List AggKey)) = [] from rfl] at hkv)

/-- Counterexample to C7 as stated: a row with prior zscore_median = 5 and
zscore_iqr = 7 that matches no aggregation group comes out with BOTH
z-score columns missing, not with its prior values. -/
theorem c7_prior_zscore_values_not_kept :
    compute_zscore_params [c7row] [] (some NormScheme.dataset) 0 =
      [⟨"d", 0, 0, 0, 0, "a.png", none, none, none⟩] ∧
    c7row.zscore_median = some 5 ∧ c7row.zscore_iqr = some 7 :=
  ⟨rfl, rfl, rfl⟩

/-- C8 (amended): constructing a `MaskProcessor` succeeds exactly when
mask_type is one of the four strings `otsu`, `unimodal`, `dataset otsu`
(spelled with a space) and `borders_weight_loss_map`, and fails for every
other string. -/
theorem c8_mask_type_accepted_iff_supported (frame_channel_idxs : List Nat)
    (mask_channel : Option Nat) (mask_type : String) :
    (maskProcessor_init frame_channel_idxs mask_channel mask_type).isSome =
      true ↔ mask_type ∈ supported_mask_types := by
  unfold maskProcessor_init
  split <;> simp_all

/-- Counterexample to C8 as stated: the spelling `dataset_otsu` (with an
underscore, as the spec names the policy) is rejected by the
constructor. -/
theorem c8_dataset_otsu_underscore_rejected :
    maskProcessor_init [0] none "dataset_otsu" = none := by decide

/-- C9: the foreground filter of `compute_zscore_params` keeps only rows
whose fg_frac is an actual value at least min_fraction, so a row with NaN
(`none`) fg_frac is excluded even when min_fraction = 0, and a dataset
whose samples all lack fg_frac contributes no statistics: every frame row
then comes out with missing z-score values. -/
theorem c9_nan_fg_frac_rows_excluded (ints_meta : List IntsRow)
    (min_fraction : ℚ) :
    (∀ r ∈ filterFg ints_meta min_fraction, r.fg_frac ≠ none) ∧
    (∀ r ∈ ints_meta, r.fg_frac = none → r ∉ filterFg ints_meta 0) ∧
    ((∀ r ∈ ints_meta, r.fg_frac = none) →
      ∀ (scheme : NormScheme) (frames_meta : List FrameRow),
        compute_zscore_params frames_meta ints_meta (some scheme)
            min_fraction =
          frames_meta.map (fun fr =>
            set_zscore_iqr (set_zscore_median fr none) none)) := by
  refine ⟨?_, ?_, ?_⟩
  · intro r hr hnone
    rw [filterFg, List.mem_filter, hnone] at hr
    simp at hr
  · intro r _ hnone hr
    rw [filterFg, List.mem_filter, hnone] at hr
    simp at hr
  · intro hall scheme frames_meta
    have hf : filterFg ints_meta min_fraction = [] := by
      rw [filterFg, List.filter_eq_nil_iff]
      intro r hr
      rw [hall r hr]
      simp
    rw [compute_zscore_params, hf]
    rfl

/-- Witness for C9: the NaN-fg_frac sample row `c9row` is dropped by the
filter at min_fraction = 0, and with only such rows every frame record ends
with missing z-score values. -/
theorem c9_nan_fg_frac_rows_excluded_witness :
    c9row ∉ filterFg [c9row] 0 ∧
    compute_zscore_params [c4row] [c9row] (some NormScheme.dataset) 0 =
      [c4row].map (fun fr =>
        set_zscore_iqr (set_zscore_median fr none) none) :=
  ⟨(c9_nan_fg_frac_rows_excluded [c9row] 0).2.1 c9row
      (List.mem_singleton.mpr rfl) rfl,
    (c9_nan_fg_frac_rows_excluded [c9row] 0).2.2
      (by intro r hr; rw [List.mem_singleton] at hr; rw [hr]; exact rfl)
      NormScheme.dataset [c4row]⟩

/-- C10: a completed `tile_stack` run pops the reference channel off the
object's `channel_ids`: the resulting state's channel list is the old one
without its head, the old reference channel no longer occurs in it (for a
duplicate-free channel list), and a subsequent run on the same object would
select a different reference channel. -/
theorem c10_tile_stack_pops_reference_channel
    (tileOne : Nat → Nat → Nat → Nat → List (Nat × Nat))
    (st st2 : TilerState) (out : List TileRecord)
    (h : tile_stack tileOne st = some (st2, out))
    (hnodup : st.channel_ids.Nodup) (ch0 : Nat)
    (h0 : st.channel_ids.head? = some ch0) :
    st2.channel_ids = st.channel_ids.drop 1 ∧ ch0 ∉ st2.channel_ids ∧
      ∀ ch1, st2.channel_ids.head? = some ch1 → ch1 ≠ ch0 := by
  obtain ⟨cs, cd, nd⟩ := st
  cases cs with
  | nil => simp [tile_stack] at h
  | cons a rest =>
    simp only [List.head?] at h0
    injection h0 with h0
    subst h0
    simp only at hnodup
    cases hb : build_ch0_ids nd a with
    | none =>
      simp only [tile_stack, hb] at h
      cases h
    | some ch0_ids =>
      simp only [tile_stack, hb] at h
      have hst2 : st2 = ⟨rest, cd, nd⟩ := by
        split at h
        · injection h with h
          exact congrArg Prod.fst h.symm
        · injection h with h
          exact congrArg Prod.fst h.symm
      subst hst2
      refine ⟨rfl, (List.nodup_cons.mp hnodup).1, ?_⟩
      intro ch1 h1 heq
      subst heq
      have hm : ch1 ∈ rest := List.mem_of_mem_head? h1
      exact (List.nodup_cons.mp hnodup).1 hm

/-- Witness for C10: the concrete run of `tile_stack` on `stW` (reference
channel 0, remaining channel 1) leaves `channel_ids = [1]`, from which the
reference channel 0 is gone. -/
theorem c10_tile_stack_pops_reference_channel_witness :
    stW2.channel_ids = stW.channel_ids.drop 1 ∧ 0 ∉ stW2.channel_ids ∧
      ∀ ch1, stW2.channel_ids.head? = some ch1 → ch1 ≠ 0 :=
  c10_tile_stack_pops_reference_channel tileOneW stW stW2 outW rfl
    (by decide) 0 rfl

end MicroDL
